import Mathlib

/-!
Shallow embedding of `src/calc.py` (a text calculator: lexer → validator →
shunting-yard parser → postfix evaluator).

Modelling conventions:
* Python strings are `List Char`; token payloads are a closed `Value` variant.
* Python `int` is `Int` (arbitrary precision, as in Python); Python `float`
  is modelled as `ℚ` (exact rationals): every concrete literal appearing in
  the statements below (`0.5`, `1.0`, …) is exactly representable as an IEEE
  double, so this does not change any of the evaluated results.
* Fallible Python code (assert failures, raised exceptions, `IndexError`
  from `list.pop()` on an empty list, `TypeError`, `ZeroDivisionError`)
  is modelled with `Except Err`.
* `calculate` returning `None` (structural invalidity) is `Except.ok none`.
-/

namespace Calc

/-- Equality of `Except` results is decidable componentwise (used to settle
concrete runs of the pipeline by `decide`). -/
instance {ε α : Type} [DecidableEq ε] [DecidableEq α] : DecidableEq (Except ε α) :=
  fun a b =>
    match a, b with
    | .error e, .error f => decidable_of_iff (e = f) (by simp)
    | .ok x, .ok y => decidable_of_iff (x = y) (by simp)
    | .error _, .ok _ => isFalse (by simp)
    | .ok _, .error _ => isFalse (by simp)

/-- `Token_Kind` enum of the source (names kept). -/
inductive Token_Kind where
  | INT
  | FLOAT
  | STRING
  | PLUS
  | MINUS
  | ASTERISK
  | SLASH
  | LPAREN
  | RPAREN
  | FUNC
  | COMMA
  deriving DecidableEq

/-- Runtime payload of a token (`Token.value` in the source, typed
`Union[int, str]` but in fact holding ints, floats, strings, or — after the
`type` builtin — a `Token_Kind` member). -/
inductive Value where
  | vint (n : Int)
  | vfloat (q : ℚ)
  | vstr (s : List Char)
  | vkind (k : Token_Kind)
  deriving DecidableEq

/-- Discriminator: is this payload a Python `str`? -/
def Value.isStr : Value → Bool
  | .vstr _ => true
  | _ => false

/-- The `Token` dataclass. -/
structure Token where
  kind : Token_Kind
  value : Value
  deriving DecidableEq

/-- Failure modes of the pipeline (Python exceptions / failed asserts). -/
inductive Err where
  /-- `assert s, "Empty Input"` in `tokenize`. -/
  | emptyInput
  /-- `NotImplementedError("Unknown sequence at row …")` in `tokenize`;
  carries the 0-based offset `len(start) - len(s)`. -/
  | lexError (pos : Nat)
  /-- Python `TypeError` (in particular from `s[1,]` — indexing a string
  with the tuple `(1,)` — in `match_escape_sequence`, and from arithmetic
  on mismatched operand types). -/
  | typeError
  /-- `NotImplementedError("Unparsable token …")` in `parse`. -/
  | unparsableToken (t : Token)
  /-- `assert ops.pop().kind == Token_Kind.LPAREN` failing in `parse`. -/
  | parseAssert
  /-- Python `IndexError`: `pop` (or `peek`) on an empty list. -/
  | popEmpty
  /-- `assert not len(stack) < n, "Not enough arguments for … function"`. -/
  | argumentError (f : List Char)
  /-- `NotImplementedError("Cannot evaluate unknown function …")`. -/
  | unknownFunction (v : Value)
  /-- `NotImplementedError("Cannot evaluate unknown token …")`. -/
  | unknownToken (t : Token)
  /-- `assert False, "Unknown type …"` in `make_token`. -/
  | makeTokenAssert
  /-- `assert len(stack) == 1` failing at the end of `evaluate`. -/
  | malformedExpression
  /-- Python `ZeroDivisionError`. -/
  | zeroDivision
  deriving DecidableEq

/-- Is `c` an ASCII digit (`ord` in `range(ord('0'), ord('9')+1)`)? -/
def isDigitCh (c : Char) : Bool := '0' ≤ c && c ≤ '9'

/-- `match_digits` (via `match_sequence_in_range` with the digit range):
longest digit run and the remainder. -/
def match_digits : List Char → List Char × List Char
  | [] => ([], [])
  | c :: s =>
    if isDigitCh c then (c :: (match_digits s).1, (match_digits s).2)
    else ([], c :: s)

/-- `match_whitespace`: longest run of space/tab and the remainder. -/
def match_whitespace : List Char → List Char × List Char
  | [] => ([], [])
  | c :: s =>
    if c = ' ' || c = '\t' then (c :: (match_whitespace s).1, (match_whitespace s).2)
    else ([], c :: s)

/-- `match_float`: digits, a literal dot, then optional digits; returns the
matched text (with the dot) and the remainder, or `([], s)` on no match. -/
def match_float (s : List Char) : List Char × List Char :=
  if (match_digits s).1 = [] then ([], s)
  else
    match (match_digits s).2 with
    | [] => ([], s)
    | c :: s2 =>
      if c = '.' then
        ((match_digits s).1 ++ '.' :: (match_digits s2).1, (match_digits s2).2)
      else ([], s)

/-- `match_escape_sequence`. If the remainder does not start with a
backslash it returns `("", start)`. If it does, the source's line
`_, s = s[:1], s[1,]` indexes the string with the tuple `(1,)`, which
raises `TypeError` before any escape expansion can happen; so every call
on a backslash-headed remainder fails with `TypeError`. -/
def match_escape_sequence : List Char → Except Err (List Char × List Char)
  | '\\' :: _ => .error .typeError
  | s => .ok ([], s)

/-- Body of `match_string`'s `while True` loop: `start` is the value
returned on an unterminated string, `sep` the opening quote, `acc` the
text accumulated so far.  On a backslash the loop calls
`match_escape_sequence`, which always raises `TypeError`
(see `match_escape_sequence`); the error is inlined here. -/
def match_string_loop (sep : Char) (start : List Char) (acc : List Char) :
    List Char → Except Err (Option (List Char) × List Char)
  | [] => .ok (none, start)
  | c :: s =>
    if c = sep then .ok (some acc, s)
    else if c = '\\' then .error .typeError
    else match_string_loop sep start (acc ++ [c]) s

/-- `match_string`: a quoted string literal, or `(none, s)` when the
remainder does not start with a quote or the string is unterminated. -/
def match_string : List Char → Except Err (Option (List Char) × List Char)
  | [] => .ok (none, [])
  | c :: s =>
    if c = '"' || c = '\'' then match_string_loop c (c :: s) [] s
    else .ok (none, c :: s)

/-- Pattern check used by `match_funcs`: does `s` start with `kw`? -/
def startsWithL : List Char → List Char → Bool
  | _, [] => true
  | [], _ :: _ => false
  | c :: s, k :: ks => c = k && startsWithL s ks

/-- `match_funcs`: case-insensitively match one of `sq`, `if`, `type`
(in that priority order) as a prefix; return the *original-case* matched
text and the remainder, or `([], s)` on no match.  Python's `str.lower`
is modelled by `Char.toLower`. -/
def match_funcs (s : List Char) : List Char × List Char :=
  let s_low := s.map Char.toLower
  if startsWithL s_low ['s', 'q'] then (s.take 2, s.drop 2)
  else if startsWithL s_low ['i', 'f'] then (s.take 2, s.drop 2)
  else if startsWithL s_low ['t', 'y', 'p', 'e'] then (s.take 4, s.drop 4)
  else ([], s)

/-- Value of Python `int(digit-string)`. -/
def digitsToNat (ds : List Char) : Nat :=
  ds.foldl (fun a c => 10 * a + (c.toNat - 48)) 0

/-- Value of Python `float(str)` for a `digits.digits` literal, as an exact
rational. -/
def pyFloatVal (cs : List Char) : ℚ :=
  let ip := cs.takeWhile (fun c => c ≠ '.')
  let fp := (cs.dropWhile (fun c => c ≠ '.')).drop 1
  (digitsToNat ip : ℚ) + (digitsToNat fp : ℚ) / (10 : ℚ) ^ fp.length

/-- One iteration of `tokenize`'s `while s:` loop on a non-empty remainder.
Returns the tokens appended during the iteration (possibly two: the comma
branch appends its token and then *falls through*, without `continue`, into
the string/function/float/integer matchers on the already-advanced
remainder) and the new remainder.  `start` is the original input, used for
the error offset `len(start) - len(s)`. -/
def tokStep (start : List Char) : List Char → Except Err (List Token × List Char)
  | [] => .ok ([], [])
  | c :: s' =>
    if c = '+' then .ok ([⟨.PLUS, .vstr ['+']⟩], (match_whitespace s').2)
    else if c = '-' then .ok ([⟨.MINUS, .vstr ['-']⟩], (match_whitespace s').2)
    else if c = '*' then .ok ([⟨.ASTERISK, .vstr ['*']⟩], (match_whitespace s').2)
    else if c = '/' then .ok ([⟨.SLASH, .vstr ['/']⟩], (match_whitespace s').2)
    else if c = '(' then .ok ([⟨.LPAREN, .vstr ['(']⟩], (match_whitespace s').2)
    else if c = ')' then .ok ([⟨.RPAREN, .vstr [')']⟩], (match_whitespace s').2)
    else
      let newToks : List Token :=
        if c = ',' then [Token.mk .COMMA (.vstr [','])] else []
      let s1 : List Char := if c = ',' then (match_whitespace s').2 else c :: s'
      match match_string s1 with
      | .error e => .error e
      | .ok (some str_str, s2) =>
        .ok (newToks ++ [⟨.STRING, .vstr str_str⟩], (match_whitespace s2).2)
      | .ok (none, _) =>
        if (match_funcs s1).1 ≠ [] then
          .ok (newToks ++ [⟨.FUNC, .vstr (match_funcs s1).1⟩],
               (match_whitespace (match_funcs s1).2).2)
        else if (match_float s1).1 ≠ [] then
          .ok (newToks ++ [⟨.FLOAT, .vfloat (pyFloatVal (match_float s1).1)⟩],
               (match_whitespace (match_float s1).2).2)
        else if (match_digits s1).1 ≠ [] then
          .ok (newToks ++ [⟨.INT, .vint (digitsToNat (match_digits s1).1)⟩],
               (match_whitespace (match_digits s1).2).2)
        else
          .error (.lexError (start.length - s1.length))

/-- `tokenize`'s loop, driven by a `Nat` bound for structural recursion.
Every successful `tokStep` on a non-empty remainder strictly shrinks it
(`tokStep_consumes` below), so a bound of `s.length` is enough for the
`0, _ :: _` case never to be reached from `tokenize`. -/
def tokenizeLoop (start : List Char) : Nat → List Char → List Token → Except Err (List Token)
  | _, [], tokens => .ok tokens
  | 0, _ :: _, tokens => .ok tokens
  | n + 1, c :: s', tokens =>
    match tokStep start (c :: s') with
    | .error e => .error e
    | .ok (new, rest) => tokenizeLoop start n rest (tokens ++ new)

/-- `tokenize`: `assert s, "Empty Input"`, then the scan loop. -/
def tokenize (s : List Char) : Except Err (List Token) :=
  if s = [] then .error .emptyInput
  else tokenizeLoop s s.length s []

/-- `tokenize` on a Lean `String`. -/
def tokenizeStr (s : String) : Except Err (List Token) := tokenize s.toList

/-- `validate_scopes`'s loop: adjust a depth counter on each token, failing
as soon as it goes negative; at the end require it to be zero. -/
def validate_scopes_loop (depth : Int) : List Token → Bool
  | [] => depth == 0
  | t :: rest =>
    let d := if t.kind = .LPAREN then depth + 1
             else if t.kind = .RPAREN then depth - 1
             else depth
    if d < 0 then false else validate_scopes_loop d rest

/-- `validate_scopes` on a token list. -/
def validate_scopes (tokens : List Token) : Bool := validate_scopes_loop 0 tokens

/-- `validate`: `test_all([validate_scopes(tokens)])` — the conjunction of
the single structural check. -/
def validate (tokens : List Token) : Bool := validate_scopes tokens

/-- `LIT_KINDS` of the source. -/
def LIT_KINDS : List Token_Kind := [.INT, .FLOAT, .STRING]

/-- `OP_KINDS` of the source. -/
def OP_KINDS : List Token_Kind :=
  [.PLUS, .MINUS, .ASTERISK, .SLASH, .COMMA, .FUNC, .LPAREN]

/-- `OP_PREC` of the source (a dict over `OP_KINDS`; the catch-all case is
never consulted, since lookups only happen on kinds in `OP_KINDS`). -/
def OP_PREC : Token_Kind → Nat
  | .COMMA => 0
  | .PLUS => 1
  | .MINUS => 1
  | .ASTERISK => 2
  | .SLASH => 2
  | .FUNC => 3
  | .LPAREN => 4
  | _ => 0

/-- The operator-push `while` loop of `parse`: pop from the operator stack
(head = top) into the output queue while the top is neither LParen nor
Comma and its precedence is not lower than the incoming token's. -/
def popOps (token : Token) : List Token → List Token → List Token × List Token
  | [], out => ([], out)
  | p :: rest, out =>
    if p.kind = .LPAREN ∨ p.kind = .COMMA then (p :: rest, out)
    else if ¬ OP_PREC p.kind < OP_PREC token.kind then popOps token rest (out ++ [p])
    else (p :: rest, out)

/-- The RParen `while` loop of `parse`: pop until the top of the operator
stack is LParen, discarding Commas and moving everything else to the
output queue. -/
def popUntilLParen : List Token → List Token → List Token × List Token
  | [], out => ([], out)
  | p :: rest, out =>
    if p.kind = .LPAREN then (p :: rest, out)
    else if p.kind = .COMMA then popUntilLParen rest out
    else popUntilLParen rest (out ++ [p])

/-- The whole RParen branch of `parse`: the pop loop, then
`if ops and peek(ops).kind == Token_Kind.FUNC: out.append(ops.pop())`,
then `assert ops.pop().kind == Token_Kind.LPAREN` (pop from an empty stack
is an `IndexError`; a non-LParen kind fails the assert). -/
def handleRParen (ops out : List Token) : Except Err (List Token × List Token) :=
  let popped := popUntilLParen ops out
  let fpop : List Token × List Token :=
    match popped.1 with
    | f :: rest =>
      if f.kind = Token_Kind.FUNC then (rest, popped.2 ++ [f]) else (f :: rest, popped.2)
    | [] => ([], popped.2)
  match fpop.1 with
  | [] => .error .popEmpty
  | t :: rest => if t.kind = Token_Kind.LPAREN then .ok (rest, fpop.2) else .error .parseAssert

/-- Main loop of `parse` over the input tokens, carrying the operator stack
(head = top) and output queue; at the end all remaining operators are
popped onto the output queue. -/
def parseLoop : List Token → List Token → List Token → Except Err (List Token)
  | [], ops, out => .ok (out ++ ops)
  | t :: ts, ops, out =>
    if t.kind ∈ LIT_KINDS then parseLoop ts ops (out ++ [t])
    else if t.kind ∈ OP_KINDS then
      let pr := popOps t ops out
      parseLoop ts (t :: pr.1) pr.2
    else if t.kind = .RPAREN then
      match handleRParen ops out with
      | .error e => .error e
      | .ok (ops1, out1) => parseLoop ts ops1 out1
    else .error (.unparsableToken t)

/-- `parse`: translate infix token order to postfix. -/
def parse (tokens : List Token) : Except Err (List Token) := parseLoop tokens [] []

/-- `make_token`: re-tag a runtime value; `assert False` for anything that
is neither a Python `int` nor a `float`. -/
def make_token : Value → Except Err Token
  | .vint n => .ok ⟨.INT, .vint n⟩
  | .vfloat q => .ok ⟨.FLOAT, .vfloat q⟩
  | _ => .error .makeTokenAssert

/-- Numeric view of a payload (`int` and `float` values). -/
def Value.toRat : Value → Option ℚ
  | .vint n => some (n : ℚ)
  | .vfloat q => some q
  | _ => none

/-- Is the payload an `int`? (used to decide int-vs-float promotion the way
Python's runtime types do). -/
def Value.isInt : Value → Bool
  | .vint _ => true
  | _ => false

/-- Python `a + b` on token payloads: int/float arithmetic with promotion,
string concatenation, `TypeError` otherwise. -/
def vadd : Value → Value → Except Err Value
  | .vint a, .vint b => .ok (.vint (a + b))
  | .vint a, .vfloat b => .ok (.vfloat ((a : ℚ) + b))
  | .vfloat a, .vint b => .ok (.vfloat (a + (b : ℚ)))
  | .vfloat a, .vfloat b => .ok (.vfloat (a + b))
  | .vstr a, .vstr b => .ok (.vstr (a ++ b))
  | _, _ => .error .typeError

/-- Python `a - b` on token payloads. -/
def vsub : Value → Value → Except Err Value
  | .vint a, .vint b => .ok (.vint (a - b))
  | .vint a, .vfloat b => .ok (.vfloat ((a : ℚ) - b))
  | .vfloat a, .vint b => .ok (.vfloat (a - (b : ℚ)))
  | .vfloat a, .vfloat b => .ok (.vfloat (a - b))
  | _, _ => .error .typeError

/-- Python `a * b` on token payloads (including `str * int` repetition). -/
def vmul : Value → Value → Except Err Value
  | .vint a, .vint b => .ok (.vint (a * b))
  | .vint a, .vfloat b => .ok (.vfloat ((a : ℚ) * b))
  | .vfloat a, .vint b => .ok (.vfloat (a * (b : ℚ)))
  | .vfloat a, .vfloat b => .ok (.vfloat (a * b))
  | .vstr a, .vint b => .ok (.vstr (List.flatten (List.replicate b.toNat a)))
  | .vint a, .vstr b => .ok (.vstr (List.flatten (List.replicate a.toNat b)))
  | _, _ => .error .typeError

/-- Python `a / b` on token payloads: true division, always a `float`
result on numerics; `ZeroDivisionError` on a zero divisor; `TypeError`
on non-numeric operands. -/
def vdiv : Value → Value → Except Err Value
  | .vint a, .vint b =>
    if b = 0 then .error .zeroDivision else .ok (.vfloat ((a : ℚ) / (b : ℚ)))
  | .vint a, .vfloat b =>
    if b = 0 then .error .zeroDivision else .ok (.vfloat ((a : ℚ) / b))
  | .vfloat a, .vint b =>
    if b = 0 then .error .zeroDivision else .ok (.vfloat (a / (b : ℚ)))
  | .vfloat a, .vfloat b =>
    if b = 0 then .error .zeroDivision else .ok (.vfloat (a / b))
  | _, _ => .error .typeError

/-- Python truthiness of a payload (`if condition:`): nonzero numbers and
non-empty strings are truthy; an enum member is always truthy. -/
def truthy : Value → Bool
  | .vint n => n ≠ 0
  | .vfloat q => q ≠ 0
  | .vstr s => s ≠ []
  | .vkind _ => true

/-- `evaluate`'s `for` loop over postfix tokens, carrying the value stack
(head = top).  Binary operators pop `b` then `a` (each pop on an empty
stack is an `IndexError`), compute `a op b` and push `make_token` of the
result.  `Func` tokens dispatch on the payload compared (case-sensitively)
against `"sq"`, `"if"`, `"type"`. -/
def evaluateLoop : List Token → List Token → Except Err Token
  | [], stack =>
    match stack with
    | [t] => .ok t
    | _ => .error .malformedExpression
  | t :: ts, stack =>
    if t.kind ∈ LIT_KINDS then evaluateLoop ts (t :: stack)
    else if t.kind = .PLUS then
      match stack with
      | [] => .error .popEmpty
      | _ :: [] => .error .popEmpty
      | tb :: ta :: rest =>
        match vadd ta.value tb.value with
        | .error e => .error e
        | .ok c =>
          match make_token c with
          | .error e => .error e
          | .ok ct => evaluateLoop ts (ct :: rest)
    else if t.kind = .MINUS then
      match stack with
      | [] => .error .popEmpty
      | _ :: [] => .error .popEmpty
      | tb :: ta :: rest =>
        match vsub ta.value tb.value with
        | .error e => .error e
        | .ok c =>
          match make_token c with
          | .error e => .error e
          | .ok ct => evaluateLoop ts (ct :: rest)
    else if t.kind = .ASTERISK then
      match stack with
      | [] => .error .popEmpty
      | _ :: [] => .error .popEmpty
      | tb :: ta :: rest =>
        match vmul ta.value tb.value with
        | .error e => .error e
        | .ok c =>
          match make_token c with
          | .error e => .error e
          | .ok ct => evaluateLoop ts (ct :: rest)
    else if t.kind = .SLASH then
      match stack with
      | [] => .error .popEmpty
      | _ :: [] => .error .popEmpty
      | tb :: ta :: rest =>
        match vdiv ta.value tb.value with
        | .error e => .error e
        | .ok c =>
          match make_token c with
          | .error e => .error e
          | .ok ct => evaluateLoop ts (ct :: rest)
    else if t.kind = .FUNC then
      if t.value = .vstr ['s', 'q'] then
        match stack with
        | [] => .error (.argumentError ['s', 'q'])
        | ta :: rest =>
          match vmul ta.value ta.value with
          | .error e => .error e
          | .ok b =>
            match make_token b with
            | .error e => .error e
            | .ok bt => evaluateLoop ts (bt :: rest)
      else if t.value = .vstr ['i', 'f'] then
        match stack with
        | tf :: tt :: tc :: rest =>
          match make_token (if truthy tc.value then tt.value else tf.value) with
          | .error e => .error e
          | .ok bt => evaluateLoop ts (bt :: rest)
        | _ => .error (.argumentError ['i', 'f'])
      else if t.value = .vstr ['t', 'y', 'p', 'e'] then
        match stack with
        | [] => .error (.argumentError ['t', 'y', 'p', 'e'])
        | ta :: rest => evaluateLoop ts (⟨.STRING, .vkind ta.kind⟩ :: rest)
      else .error (.unknownFunction t.value)
    else .error (.unknownToken t)

/-- `evaluate`: run the postfix sequence against an empty value stack. -/
def evaluate (tokens : List Token) : Except Err Token := evaluateLoop tokens []

/-- `calculate`: tokenize, validate (returning `none` when invalid), parse,
evaluate, and unwrap the final token's payload. -/
def calculate (s : List Char) : Except Err (Option Value) :=
  match tokenize s with
  | .error e => .error e
  | .ok tokens =>
    if validate tokens then
      match parse tokens with
      | .error e => .error e
      | .ok instructions =>
        match evaluate instructions with
        | .error e => .error e
        | .ok result => .ok (some result.value)
    else .ok none

/-- `calculate` on a Lean `String`. -/
def calcStr (s : String) : Except Err (Option Value) := calculate s.toList

/-- Paren-depth contribution of one token (+1 for LParen, -1 for RParen). -/
def parenDelta (t : Token) : Int :=
  if t.kind = .LPAREN then 1 else if t.kind = .RPAREN then -1 else 0

/-- Running LParen/RParen depth after a token sequence. -/
def depthAfter (ts : List Token) : Int := (ts.map parenDelta).sum

/-- A token sequence has unbalanced grouping: the running depth goes
negative at some prefix, or is nonzero at the end. -/
def Unbalanced (ts : List Token) : Prop :=
  (∃ p, p <+: ts ∧ depthAfter p < 0) ∨ depthAfter ts ≠ 0

/-! ### Supporting lemmas -/

theorem match_whitespace_len (s : List Char) :
    (match_whitespace s).2.length ≤ s.length := by
  induction s with
  | nil => simp [match_whitespace]
  | cons c s ih =>
    simp only [match_whitespace]
    by_cases h : c = ' ' || c = '\t'
    · simp only [h, if_pos]
      simpa using Nat.le_succ_of_le ih
    · simp [h]

theorem match_digits_spec (s : List Char) :
    (match_digits s).1.length + (match_digits s).2.length = s.length := by
  induction s with
  | nil => simp [match_digits]
  | cons c s ih =>
    simp only [match_digits]
    by_cases h : isDigitCh c
    · simp only [h, if_pos, List.length_cons]
      omega
    · simp [h]

theorem match_digits_len (s : List Char) :
    (match_digits s).2.length ≤ s.length := by
  have := match_digits_spec s
  omega

theorem match_digits_lt (s : List Char) (h : (match_digits s).1 ≠ []) :
    (match_digits s).2.length < s.length := by
  have hs := match_digits_spec s
  have : (match_digits s).1.length ≠ 0 := by
    simpa [List.length_eq_zero] using h
  omega

theorem match_float_lt (s : List Char) (h : (match_float s).1 ≠ []) :
    (match_float s).2.length < s.length := by
  by_cases h0 : (match_digits s).1 = []
  · exact absurd (by simp [match_float, h0]) h
  · rcases hd : (match_digits s).2 with _ | ⟨c, s2⟩
    · exact absurd (by simp [match_float, h0, hd]) h
    · by_cases hc : c = '.'
      · subst hc
        have h1 := match_digits_spec s
        have h2 := match_digits_len s2
        rw [hd] at h1
        simp only [List.length_cons] at h1
        have h0' : (match_digits s).1.length ≠ 0 := by
          simpa [List.length_eq_zero] using h0
        simp only [match_float, h0, if_neg, ite_false, hd, if_pos]
        omega
      · exact absurd (by simp [match_float, h0, hd, hc]) h

theorem match_float_len (s : List Char) :
    (match_float s).2.length ≤ s.length := by
  by_cases h0 : (match_digits s).1 = []
  · simp [match_float, h0]
  · rcases hd : (match_digits s).2 with _ | ⟨c, s2⟩
    · simp [match_float, h0, hd]
    · by_cases hc : c = '.'
      · refine Nat.le_of_lt (match_float_lt s ?_)
        subst hc
        simp [match_float, h0, hd]
      · simp [match_float, h0, hd, hc]

theorem match_string_loop_some_lt (sep : Char) (start : List Char) :
    ∀ (s acc t r : List Char),
      match_string_loop sep start acc s = .ok (some t, r) → r.length < s.length := by
  intro s
  induction s with
  | nil => intro acc t r h; simp [match_string_loop] at h
  | cons c s ih =>
    intro acc t r h
    simp only [match_string_loop] at h
    by_cases h1 : c = sep
    · rw [if_pos h1] at h
      obtain ⟨_, h3⟩ : some acc = some t ∧ s = r := by
        simpa using h
      simp [← h3]
    · rw [if_neg h1] at h
      by_cases h2 : c = '\\'
      · rw [if_pos h2] at h
        simp at h
      · rw [if_neg h2] at h
        exact Nat.lt_succ_of_lt (ih _ _ _ h)

theorem match_string_some_lt (s t r : List Char)
    (h : match_string s = .ok (some t, r)) : r.length < s.length := by
  rcases s with _ | ⟨c, s⟩
  · simp [match_string] at h
  · simp only [match_string] at h
    by_cases h1 : (c = '"' || c = '\'') = true
    · rw [if_pos h1] at h
      exact Nat.lt_succ_of_lt (match_string_loop_some_lt _ _ _ _ _ _ h)
    · rw [if_neg h1] at h
      simp at h

theorem match_string_none_eq (s r : List Char)
    (h : match_string s = .ok (none, r)) : r = s := by
  rcases s with _ | ⟨c, s⟩
  · simpa [match_string] using h.symm
  · simp only [match_string] at h
    by_cases h1 : (c = '"' || c = '\'') = true
    · rw [if_pos h1] at h
      -- the loop only returns `none` paired with its `start` argument
      have key : ∀ (s' acc : List Char),
          match_string_loop c (c :: s) acc s' = .ok (none, r) → r = c :: s := by
        intro s'
        induction s' with
        | nil => intro acc hh; simpa [match_string_loop] using hh.symm
        | cons d s' ih =>
          intro acc hh
          simp only [match_string_loop] at hh
          by_cases hd : d = c
          · rw [if_pos hd] at hh
            simp at hh
          · rw [if_neg hd] at hh
            by_cases hb : d = '\\'
            · rw [if_pos hb] at hh
              simp at hh
            · rw [if_neg hb] at hh
              exact ih _ hh
      exact key s [] h
    · rw [if_neg h1] at h
      simpa using h.symm

theorem match_funcs_len (s : List Char) :
    (match_funcs s).2.length ≤ s.length := by
  simp only [match_funcs]
  split
  · simp [Nat.sub_le]
  · split
    · simp [Nat.sub_le]
    · split
      · simp [Nat.sub_le]
      · simp

theorem match_funcs_lt (s : List Char) (h : (match_funcs s).1 ≠ []) :
    (match_funcs s).2.length < s.length := by
  have hdrop : ∀ k : Nat, 1 ≤ k → s ≠ [] → (s.drop k).length < s.length := by
    intro k hk hs
    rcases s with _ | ⟨c, s⟩
    · exact absurd rfl hs
    · simp only [List.length_drop, List.length_cons]
      omega
  by_cases h1 : startsWithL (s.map Char.toLower) ['s', 'q'] = true
  · have hs : s ≠ [] := by
      intro he
      rw [he] at h1
      simp [startsWithL] at h1
    simp only [match_funcs, h1, if_pos]
    exact hdrop 2 (by omega) hs
  · by_cases h2 : startsWithL (s.map Char.toLower) ['i', 'f'] = true
    · have hs : s ≠ [] := by
        intro he
        rw [he] at h2
        simp [startsWithL] at h2
      simp only [match_funcs, h1, h2, if_pos, if_neg, ite_false]
      exact hdrop 2 (by omega) hs
    · by_cases h3 : startsWithL (s.map Char.toLower) ['t', 'y', 'p', 'e'] = true
      · have hs : s ≠ [] := by
          intro he
          rw [he] at h3
          simp [startsWithL] at h3
        simp only [match_funcs, h1, h2, h3, if_pos, if_neg, ite_false]
        exact hdrop 4 (by omega) hs
      · exact absurd (by simp [match_funcs, h1, h2, h3]) h

/-- Every successful scan-loop iteration strictly consumes input: the new
remainder is no longer than the tail of the old one.  (This is what makes
the `s.length` bound in `tokenize` sufficient.) -/
theorem tokStep_consumes (start : List Char) (c : Char) (s' : List Char)
    (new : List Token) (rest : List Char)
    (h : tokStep start (c :: s') = .ok (new, rest)) : rest.length ≤ s'.length := by
  simp only [tokStep] at h
  by_cases hc1 : c = '+'
  · rw [if_pos hc1] at h
    obtain ⟨_, h2⟩ : _ ∧ (match_whitespace s').2 = rest := by simpa using h
    rw [← h2]
    exact match_whitespace_len s'
  · rw [if_neg hc1] at h
    by_cases hc2 : c = '-'
    · rw [if_pos hc2] at h
      obtain ⟨_, h2⟩ : _ ∧ (match_whitespace s').2 = rest := by simpa using h
      rw [← h2]
      exact match_whitespace_len s'
    · rw [if_neg hc2] at h
      by_cases hc3 : c = '*'
      · rw [if_pos hc3] at h
        obtain ⟨_, h2⟩ : _ ∧ (match_whitespace s').2 = rest := by simpa using h
        rw [← h2]
        exact match_whitespace_len s'
      · rw [if_neg hc3] at h
        by_cases hc4 : c = '/'
        · rw [if_pos hc4] at h
          obtain ⟨_, h2⟩ : _ ∧ (match_whitespace s').2 = rest := by simpa using h
          rw [← h2]
          exact match_whitespace_len s'
        · rw [if_neg hc4] at h
          by_cases hc5 : c = '('
          · rw [if_pos hc5] at h
            obtain ⟨_, h2⟩ : _ ∧ (match_whitespace s').2 = rest := by simpa using h
            rw [← h2]
            exact match_whitespace_len s'
          · rw [if_neg hc5] at h
            by_cases hc6 : c = ')'
            · rw [if_pos hc6] at h
              obtain ⟨_, h2⟩ : _ ∧ (match_whitespace s').2 = rest := by simpa using h
              rw [← h2]
              exact match_whitespace_len s'
            · rw [if_neg hc6] at h
              -- `s1` is the post-comma remainder (or the whole input)
              have hs1 : (if c = ',' then (match_whitespace s').2 else c :: s').length
                  ≤ s'.length + 1 := by
                by_cases hc7 : c = ','
                · simp only [hc7, if_pos]
                  exact Nat.le_succ_of_le (match_whitespace_len s')
                · simp [hc7]
              set s1 := if c = ',' then (match_whitespace s').2 else c :: s' with hs1def
              -- case on the result of the string matcher
              rcases hms : match_string s1 with e | ⟨so, s2⟩
              · rw [hms] at h
                simp at h
              · rw [hms] at h
                rcases so with _ | t
                · -- no string literal: function, float, integer matchers in turn
                  by_cases hf : (match_funcs s1).1 ≠ []
                  · rw [if_pos hf] at h
                    obtain ⟨_, h2⟩ : _ ∧ (match_whitespace (match_funcs s1).2).2 = rest := by
                      simpa using h
                    have l1 := match_whitespace_len (match_funcs s1).2
                    have l2 := match_funcs_lt s1 hf
                    rw [← h2]
                    omega
                  · rw [if_neg hf] at h
                    by_cases hfl : (match_float s1).1 ≠ []
                    · rw [if_pos hfl] at h
                      obtain ⟨_, h2⟩ : _ ∧ (match_whitespace (match_float s1).2).2 = rest := by
                        simpa using h
                      have l1 := match_whitespace_len (match_float s1).2
                      have l2 := match_float_lt s1 hfl
                      rw [← h2]
                      omega
                    · rw [if_neg hfl] at h
                      by_cases hdg : (match_digits s1).1 ≠ []
                      · rw [if_pos hdg] at h
                        obtain ⟨_, h2⟩ : _ ∧ (match_whitespace (match_digits s1).2).2 = rest := by
                          simpa using h
                        have l1 := match_whitespace_len (match_digits s1).2
                        have l2 := match_digits_lt s1 (by simpa using hdg)
                        rw [← h2]
                        omega
                      · rw [if_neg hdg] at h
                        simp at h
                · obtain ⟨_, h2⟩ : _ ∧ (match_whitespace s2).2 = rest := by simpa using h
                  have l1 := match_whitespace_len s2
                  have l2 := match_string_some_lt s1 t s2 hms
                  rw [← h2]
                  omega

/-- The fuel driving `tokenizeLoop` is irrelevant once it is at least the
remainder's length: the `0, _ :: _` fallback of the loop is unreachable
from `tokenize`. -/
theorem tokenizeLoop_fuel (start : List Char) :
    ∀ (n m : Nat) (s : List Char) (tokens : List Token),
      s.length ≤ n → s.length ≤ m →
      tokenizeLoop start n s tokens = tokenizeLoop start m s tokens := by
  intro n
  induction n with
  | zero =>
    intro m s tokens hn _
    have : s = [] := by
      rcases s with _ | ⟨c, s⟩
      · rfl
      · simp at hn
    subst this
    cases m <;> rfl
  | succ n ih =>
    intro m s tokens hn hm
    rcases s with _ | ⟨c, s'⟩
    · cases m <;> rfl
    · rcases m with _ | m
      · simp at hm
      · simp only [tokenizeLoop]
        rcases hstep : tokStep start (c :: s') with e | ⟨new, rest⟩
        · rfl
        · have hr := tokStep_consumes start c s' new rest hstep
          simp only [List.length_cons] at hn hm
          exact ih m rest (tokens ++ new) (by omega) (by omega)

/-- Soundness of the depth-counter loop: if it accepts starting from a
non-negative depth `d`, then `d` plus the total delta is zero and `d` plus
every prefix's delta is non-negative. -/
theorem validate_scopes_loop_true :
    ∀ (ts : List Token) (d : Int), 0 ≤ d → validate_scopes_loop d ts = true →
      d + depthAfter ts = 0 ∧ ∀ p, p <+: ts → 0 ≤ d + depthAfter p := by
  intro ts
  induction ts with
  | nil =>
    intro d hd h
    simp only [validate_scopes_loop, beq_iff_eq] at h
    refine ⟨by simp [depthAfter, h], ?_⟩
    intro p hp
    obtain ⟨q, hq⟩ := hp
    have hp0 : p = [] := (List.append_eq_nil.mp hq).1
    rw [hp0]
    simp [depthAfter, h]
  | cons t ts ih =>
    intro d hd h
    simp only [validate_scopes_loop] at h
    have hdelta : (if t.kind = .LPAREN then d + 1
        else if t.kind = .RPAREN then d - 1 else d) = d + parenDelta t := by
      rcases t with ⟨k, v⟩
      cases k <;> simp [parenDelta, sub_eq_add_neg]
    rw [hdelta] at h
    by_cases hneg : d + parenDelta t < 0
    · rw [if_pos hneg] at h
      simp at h
    · rw [if_neg hneg] at h
      push_neg at hneg
      obtain ⟨ihsum, ihpre⟩ := ih (d + parenDelta t) hneg h
      constructor
      · simp only [depthAfter] at ihsum
        simp only [depthAfter, List.map_cons, List.sum_cons]
        omega
      · intro p hp
        rcases hp with ⟨q, hq⟩
        rcases p with _ | ⟨p0, p'⟩
        · simpa [depthAfter] using hd
        · simp only [List.cons_append] at hq
          injection hq with hp0 hq'
          subst hp0
          have hthis := ihpre p' ⟨q, hq'⟩
          simp only [depthAfter, List.map_cons, List.sum_cons] at hthis ⊢
          omega

/-- A token sequence with unbalanced grouping is rejected by `validate`. -/
theorem unbalanced_validate_false (ts : List Token) (h : Unbalanced ts) :
    validate ts = false := by
  by_contra hv
  have hv' : validate_scopes_loop 0 ts = true := by
    simpa [validate, validate_scopes] using hv
  obtain ⟨hsum, hpre⟩ := validate_scopes_loop_true ts 0 (le_refl 0) hv'
  rcases h with ⟨p, hp, hneg⟩ | hnz
  · have := hpre p hp
    omega
  · omega

/-- After the RParen pop loop, a non-empty operator stack necessarily has
an LParen on top (the loop stops at nothing else). -/
theorem popUntilLParen_kind :
    ∀ (ops out : List Token) (t : Token) (rest out1 : List Token),
      popUntilLParen ops out = (t :: rest, out1) → t.kind = .LPAREN := by
  intro ops
  induction ops with
  | nil =>
    intro out t rest out1 h
    simp [popUntilLParen] at h
  | cons p ps ih =>
    intro out t rest out1 h
    simp only [popUntilLParen] at h
    by_cases h1 : p.kind = .LPAREN
    · rw [if_pos h1] at h
      obtain ⟨h2, _⟩ : p :: ps = t :: rest ∧ out = out1 := by simpa using h
      injection h2 with h3 _
      rw [← h3]
      exact h1
    · rw [if_neg h1] at h
      by_cases h2 : p.kind = .COMMA
      · rw [if_pos h2] at h
        exact ih out t rest out1 h
      · rw [if_neg h2] at h
        exact ih (out ++ [p]) t rest out1 h

/-- Pushing a literal-kind token onto the value stack. -/
theorem evaluateLoop_lit (t : Token) (h : t.kind ∈ LIT_KINDS)
    (ts stack : List Token) :
    evaluateLoop (t :: ts) stack = evaluateLoop ts (t :: stack) := by
  simp only [evaluateLoop]
  rw [if_pos h]

/-! ### Claim theorems -/

/-- C1 (amended): when a `type` Func token is evaluated with a value `v` on
the stack, evaluate pops `v` and pushes a String-kind token whose payload is
`v`'s token-kind *value itself* (the `Token_Kind` member, not a name
string); `calculate("type(1)")` returns the Integer kind value and
`calculate("type(1.0)")` the Float kind value. -/
theorem C1_thm :
    (∀ v : Token,
      evaluateLoop [⟨.FUNC, .vstr ['t', 'y', 'p', 'e']⟩] [v] =
        .ok ⟨.STRING, .vkind v.kind⟩) ∧
    calcStr "type(1)" = .ok (some (.vkind .INT)) ∧
    calcStr "type(1.0)" = .ok (some (.vkind .FLOAT)) :=
  ⟨fun _ => rfl, by decide, by decide⟩

/-- C1 counterexample: `calculate("type(1)")` does not return a string
identifying the Integer kind — it returns the `Token_Kind` member itself,
whose payload is not a Python `str`. -/
theorem C1_cex :
    calcStr "type(1)" = .ok (some (.vkind .INT)) ∧
    Value.isStr (.vkind .INT) = false := by
  decide

/-- C2 (code evaluated at the failing input): the escape-sequence matcher
raises `TypeError` on *every* backslash escape — `s[1,]` indexes the string
with a tuple — so a string literal containing `\n` is never expanded; the
whole pipeline fails with `TypeError` instead of producing a String token
with a newline. -/
theorem C2_thm :
    (∀ s : List Char, match_escape_sequence ('\\' :: s) = .error .typeError) ∧
    tokenizeStr "\"\\n\"" = .error .typeError ∧
    calcStr "\"\\n\"" = .error .typeError :=
  ⟨fun _ => rfl, by decide, by decide⟩

/-- C3 (amended): when an RParen is handled, the parser pops operators into
the output queue until the top of the operator stack is LParen (discarding
Commas); the subsequent Func check compares against the top of the stack,
which at that point is necessarily the LParen itself (or the stack is
empty, a defect), so no Func token is ever popped there — the RParen
handler only discards the LParen.  Func tokens are emitted later, by
precedence popping or the end-of-input drain, as the `sq ( 2 )` example
shows. -/
theorem C3_thm :
    (∀ ops out : List Token,
      handleRParen ops out =
        match popUntilLParen ops out with
        | ([], _) => .error .popEmpty
        | (_ :: rest, out1) => .ok (rest, out1)) ∧
    parse [⟨.FUNC, .vstr ['s', 'q']⟩, ⟨.LPAREN, .vstr ['(']⟩, ⟨.INT, .vint 2⟩,
        ⟨.RPAREN, .vstr [')']⟩] =
      .ok [⟨.INT, .vint 2⟩, ⟨.FUNC, .vstr ['s', 'q']⟩] := by
  constructor
  · intro ops out
    rcases hp : popUntilLParen ops out with ⟨ops1, out1⟩
    rcases ops1 with _ | ⟨t, rest⟩
    · simp [handleRParen, hp]
    · have hk := popUntilLParen_kind ops out t rest out1 hp
      simp [handleRParen, hp, hk]
  · decide

/-- C3 counterexample: on the token sequence of `sq(2)3`, the Func token
is *not* emitted immediately after its arguments — the later-input literal
`3` precedes it in the output queue (the Func is only flushed by the final
drain). -/
theorem C3_cex :
    parse [⟨.FUNC, .vstr ['s', 'q']⟩, ⟨.LPAREN, .vstr ['(']⟩, ⟨.INT, .vint 2⟩,
        ⟨.RPAREN, .vstr [')']⟩, ⟨.INT, .vint 3⟩] =
      .ok [⟨.INT, .vint 2⟩, ⟨.INT, .vint 3⟩, ⟨.FUNC, .vstr ['s', 'q']⟩] ∧
    ¬ parse [⟨.FUNC, .vstr ['s', 'q']⟩, ⟨.LPAREN, .vstr ['(']⟩, ⟨.INT, .vint 2⟩,
        ⟨.RPAREN, .vstr [')']⟩, ⟨.INT, .vint 3⟩] =
      .ok [⟨.INT, .vint 2⟩, ⟨.FUNC, .vstr ['s', 'q']⟩, ⟨.INT, .vint 3⟩] := by
  decide

/-- C4 (amended): an `if` Func token evaluated on a stack of three literal
values pops `false_val`, then `true_val`, then `condition`, and pushes the
result of `make_token` on the selected branch's payload: Integer and Float
branch values keep their original token type, but a String branch value
makes `make_token` fail its assertion (no String branch can be pushed);
the nested example `if(1,if(if(0,0,1),2,3),4)` evaluates to 2. -/
theorem C4_thm :
    (∀ tc tt tf : Token,
      tc.kind ∈ LIT_KINDS → tt.kind ∈ LIT_KINDS → tf.kind ∈ LIT_KINDS →
      evaluate [tc, tt, tf, ⟨.FUNC, .vstr ['i', 'f']⟩] =
        make_token (if truthy tc.value then tt.value else tf.value)) ∧
    (∀ n : Int, make_token (.vint n) = .ok ⟨.INT, .vint n⟩) ∧
    (∀ q : ℚ, make_token (.vfloat q) = .ok ⟨.FLOAT, .vfloat q⟩) ∧
    (∀ s : List Char, make_token (.vstr s) = .error .makeTokenAssert) ∧
    calcStr "if(1,if(if(0,0,1),2,3),4)" = .ok (some (.vint 2)) := by
  refine ⟨?_, fun _ => rfl, fun _ => rfl, fun _ => rfl, by decide⟩
  intro tc tt tf h1 h2 h3
  rw [evaluate, evaluateLoop_lit tc h1, evaluateLoop_lit tt h2, evaluateLoop_lit tf h3]
  rcases hmt : make_token (if truthy tc.value then tt.value else tf.value) with e | bt
  · simp [evaluateLoop, hmt, LIT_KINDS]
  · simp [evaluateLoop, hmt, LIT_KINDS]

/-- C4 witness: the amended theorem applied at `condition = 1`,
`true_val = "a"`, `false_val = 2`. -/
theorem C4_witness :
    evaluate [⟨.INT, .vint 1⟩, ⟨.STRING, .vstr ['a']⟩, ⟨.INT, .vint 2⟩,
        ⟨.FUNC, .vstr ['i', 'f']⟩] =
      make_token (if truthy (.vint 1) then Value.vstr ['a'] else .vint 2) :=
  C4_thm.1 ⟨.INT, .vint 1⟩ ⟨.STRING, .vstr ['a']⟩ ⟨.INT, .vint 2⟩
    (by decide) (by decide) (by decide)

/-- C4 counterexample: a String-kind branch value does not retain its type
through `if` — `calculate("if(1,\"a\",2)")` fails in `make_token` instead
of returning the string. -/
theorem C4_cex :
    calcStr "if(1,\"a\",2)" = .error .makeTokenAssert ∧
    ¬ calcStr "if(1,\"a\",2)" = .ok (some (.vstr ['a'])) := by
  decide

/-- C5: equal-precedence binary operators are evaluated left-associatively
and Asterisk/Slash bind tighter than Plus/Minus, with parentheses
overriding precedence: `1-2-3` is -4 and `1+3*9*((7)+3)` is 271; in
general, for literal operands, `x op1 y op2 z` parses to postfix
`x y op1 z op2` when the operators have equal precedence and to
`x y z op2 op1` when `op2` binds tighter. -/
theorem C5_thm :
    calcStr "1-2-3" = .ok (some (.vint (-4))) ∧
    calcStr "1+3*9*((7)+3)" = .ok (some (.vint 271)) ∧
    (∀ (t1 t2 : Token) (x y z : Int),
      t1.kind ∈ [Token_Kind.PLUS, .MINUS, .ASTERISK, .SLASH] →
      t2.kind ∈ [Token_Kind.PLUS, .MINUS, .ASTERISK, .SLASH] →
      OP_PREC t1.kind = OP_PREC t2.kind →
      parse [⟨.INT, .vint x⟩, t1, ⟨.INT, .vint y⟩, t2, ⟨.INT, .vint z⟩] =
        .ok [⟨.INT, .vint x⟩, ⟨.INT, .vint y⟩, t1, ⟨.INT, .vint z⟩, t2]) ∧
    (∀ (t1 t2 : Token) (x y z : Int),
      t1.kind ∈ [Token_Kind.PLUS, .MINUS] →
      t2.kind ∈ [Token_Kind.ASTERISK, .SLASH] →
      parse [⟨.INT, .vint x⟩, t1, ⟨.INT, .vint y⟩, t2, ⟨.INT, .vint z⟩] =
        .ok [⟨.INT, .vint x⟩, ⟨.INT, .vint y⟩, ⟨.INT, .vint z⟩, t2, t1]) := by
  refine ⟨by decide, by decide, ?_, ?_⟩
  · intro t1 t2 x y z h1 h2 hp
    rcases t1 with ⟨k1, v1⟩
    rcases t2 with ⟨k2, v2⟩
    simp only [List.mem_cons, List.not_mem_nil, or_false] at h1 h2
    rcases h1 with h1 | h1 | h1 | h1 <;> rcases h2 with h2 | h2 | h2 | h2 <;>
      subst h1 <;> subst h2 <;>
      first
        | rfl
        | simp [OP_PREC] at hp
  · intro t1 t2 x y z h1 h2
    rcases t1 with ⟨k1, v1⟩
    rcases t2 with ⟨k2, v2⟩
    simp only [List.mem_cons, List.not_mem_nil, or_false] at h1 h2
    rcases h1 with h1 | h1 <;> rcases h2 with h2 | h2 <;>
      subst h1 <;> subst h2 <;> rfl

/-- C5 witness: the general clauses applied at `1-2-3`'s operators and at
`+` versus `*`. -/
theorem C5_witness :
    parse [⟨.INT, .vint 1⟩, ⟨.MINUS, .vstr ['-']⟩, ⟨.INT, .vint 2⟩,
        ⟨.MINUS, .vstr ['-']⟩, ⟨.INT, .vint 3⟩] =
      .ok [⟨.INT, .vint 1⟩, ⟨.INT, .vint 2⟩, ⟨.MINUS, .vstr ['-']⟩,
        ⟨.INT, .vint 3⟩, ⟨.MINUS, .vstr ['-']⟩] ∧
    parse [⟨.INT, .vint 1⟩, ⟨.PLUS, .vstr ['+']⟩, ⟨.INT, .vint 3⟩,
        ⟨.ASTERISK, .vstr ['*']⟩, ⟨.INT, .vint 9⟩] =
      .ok [⟨.INT, .vint 1⟩, ⟨.INT, .vint 3⟩, ⟨.INT, .vint 9⟩,
        ⟨.ASTERISK, .vstr ['*']⟩, ⟨.PLUS, .vstr ['+']⟩] :=
  ⟨C5_thm.2.2.1 ⟨.MINUS, .vstr ['-']⟩ ⟨.MINUS, .vstr ['-']⟩ 1 2 3
      (by decide) (by decide) (by decide),
    C5_thm.2.2.2 ⟨.PLUS, .vstr ['+']⟩ ⟨.ASTERISK, .vstr ['*']⟩ 1 3 9
      (by decide) (by decide)⟩

/-- C6: the Slash operator performs true division: on any two numeric
operands (with a nonzero divisor) the pushed token is Float-kind and its
payload is the exact quotient — in particular `Integer / Integer` is
Float-typed even when the quotient is integral, and `calculate("1/2")`
yields the floating-point value one half. -/
theorem C6_thm :
    (∀ (ta tb : Token) (x y : ℚ),
      ta.kind ∈ LIT_KINDS → tb.kind ∈ LIT_KINDS →
      Value.toRat ta.value = some x → Value.toRat tb.value = some y → y ≠ 0 →
      evaluate [ta, tb, ⟨.SLASH, .vstr ['/']⟩] = .ok ⟨.FLOAT, .vfloat (x / y)⟩) ∧
    calcStr "1/2" = .ok (some (.vfloat (1 / 2))) := by
  constructor
  · intro ta tb x y h1 h2 hx hy hynz
    rw [evaluate, evaluateLoop_lit ta h1, evaluateLoop_lit tb h2]
    rcases ta with ⟨ka, va⟩
    rcases tb with ⟨kb, vb⟩
    rcases va with n | q | s | k <;> simp [Value.toRat] at hx <;>
      rcases vb with m | r | s' | k' <;> simp [Value.toRat] at hy
    · subst hx
      subst hy
      have hm : m ≠ 0 := by exact_mod_cast hynz
      simp [evaluateLoop, vdiv, hm, make_token, LIT_KINDS]
    · subst hx
      subst hy
      simp [evaluateLoop, vdiv, hynz, make_token, LIT_KINDS]
    · subst hx
      subst hy
      have hm : m ≠ 0 := by exact_mod_cast hynz
      simp [evaluateLoop, vdiv, hm, make_token, LIT_KINDS]
    · subst hx
      subst hy
      simp [evaluateLoop, vdiv, hynz, make_token, LIT_KINDS]
  · with_unfolding_all decide

/-- C6 witness: the general clause applied at `1 / 2` on Integer tokens. -/
theorem C6_witness :
    evaluate [⟨.INT, .vint 1⟩, ⟨.INT, .vint 2⟩, ⟨.SLASH, .vstr ['/']⟩] =
      .ok ⟨.FLOAT, .vfloat ((1 : ℚ) / 2)⟩ :=
  C6_thm.1 ⟨.INT, .vint 1⟩ ⟨.INT, .vint 2⟩ 1 2 (by decide) (by decide)
    (by simp [Value.toRat]) (by simp [Value.toRat]) (by norm_num)

/-- C7: a token sequence whose running LParen/RParen depth goes negative at
some prefix or is nonzero at the end is rejected by `validate`, and
`calculate` then returns no result (`none`) rather than failing with an
error; in particular `calculate("(1+2")` returns no result. -/
theorem C7_thm :
    (∀ (s : List Char) (ts : List Token),
      tokenize s = .ok ts → Unbalanced ts →
      validate ts = false ∧ calculate s = .ok none) ∧
    calcStr "(1+2" = .ok none := by
  constructor
  · intro s ts htok hunb
    have hv := unbalanced_validate_false ts hunb
    refine ⟨hv, ?_⟩
    simp [calculate, htok, hv]
  · decide

/-- C7 witness: the theorem applied to the input `(1+2`, whose total depth
is 1. -/
theorem C7_witness :
    validate [⟨.LPAREN, .vstr ['(']⟩, ⟨.INT, .vint 1⟩, ⟨.PLUS, .vstr ['+']⟩,
        ⟨.INT, .vint 2⟩] = false ∧
    calculate "(1+2".toList = .ok none :=
  C7_thm.1 "(1+2".toList
    [⟨.LPAREN, .vstr ['(']⟩, ⟨.INT, .vint 1⟩, ⟨.PLUS, .vstr ['+']⟩, ⟨.INT, .vint 2⟩]
    (by decide) (Or.inr (by decide))

/-- C8: the lexer matches built-in function names case-insensitively and
emits a Func token carrying the original-case text, but the evaluator's
dispatch compares that text case-sensitively against the lowercase names,
so any built-in written with an uppercase letter fails with an
UnknownFunction-kind error; in particular `calculate("SQ(2)")`. -/
theorem C8_thm :
    (∀ w r : List Char,
      w.map Char.toLower ∈ [['s', 'q'], ['i', 'f'], ['t', 'y', 'p', 'e']] →
      match_funcs (w ++ r) = (w, r)) ∧
    (∀ w : List Char, w ∉ [['s', 'q'], ['i', 'f'], ['t', 'y', 'p', 'e']] →
      evaluate [⟨.FUNC, .vstr w⟩] = .error (.unknownFunction (.vstr w))) ∧
    tokenizeStr "SQ(2)" = .ok [⟨.FUNC, .vstr ['S', 'Q']⟩, ⟨.LPAREN, .vstr ['(']⟩,
      ⟨.INT, .vint 2⟩, ⟨.RPAREN, .vstr [')']⟩] ∧
    calcStr "SQ(2)" = .error (.unknownFunction (.vstr ['S', 'Q'])) := by
  refine ⟨?_, ?_, by decide, by decide⟩
  · intro w r h
    simp only [List.mem_cons, List.not_mem_nil, or_false] at h
    rcases h with h | h | h
    · rcases w with _ | ⟨c1, w⟩
      · simp at h
      rcases w with _ | ⟨c2, w⟩
      · simp at h
      rcases w with _ | ⟨c3, w⟩
      · obtain ⟨hc1, hc2⟩ : c1.toLower = 's' ∧ c2.toLower = 'q' := by simpa using h
        simp [match_funcs, startsWithL, hc1, hc2]
      · simp at h
    · rcases w with _ | ⟨c1, w⟩
      · simp at h
      rcases w with _ | ⟨c2, w⟩
      · simp at h
      rcases w with _ | ⟨c3, w⟩
      · obtain ⟨hc1, hc2⟩ : c1.toLower = 'i' ∧ c2.toLower = 'f' := by simpa using h
        simp [match_funcs, startsWithL, hc1, hc2]
      · simp at h
    · rcases w with _ | ⟨c1, w⟩
      · simp at h
      rcases w with _ | ⟨c2, w⟩
      · simp at h
      rcases w with _ | ⟨c3, w⟩
      · simp at h
      rcases w with _ | ⟨c4, w⟩
      · simp at h
      rcases w with _ | ⟨c5, w⟩
      · obtain ⟨hc1, hc2, hc3, hc4⟩ :
            c1.toLower = 't' ∧ c2.toLower = 'y' ∧ c3.toLower = 'p' ∧ c4.toLower = 'e' := by
          simpa using h
        simp [match_funcs, startsWithL, hc1, hc2, hc3, hc4]
      · simp at h
  · intro w hw
    simp only [List.mem_cons, List.not_mem_nil, or_false, not_or] at hw
    obtain ⟨hw1, hw2, hw3⟩ := hw
    simp [evaluate, evaluateLoop, LIT_KINDS, hw1, hw2, hw3]

/-- C8 witness: the theorem's clauses applied at the original-case text
`SQ`. -/
theorem C8_witness :
    match_funcs (['S', 'Q'] ++ ['(', '2', ')']) = (['S', 'Q'], ['(', '2', ')']) ∧
    evaluate [⟨.FUNC, .vstr ['S', 'Q']⟩]
      = .error (.unknownFunction (.vstr ['S', 'Q'])) :=
  ⟨C8_thm.1 ['S', 'Q'] ['(', '2', ')'] (by decide),
    C8_thm.2.1 ['S', 'Q'] (by decide)⟩

/-- C9: after appending a Comma token the scan loop does not restart; the
string/function/float/integer matchers run on the already-advanced
remainder in the same iteration, and if (after any run of spaces/tabs)
none of them matches, tokenize fails with the LexError at that position —
in particular on `if(1,(2),3)`, whose comma is followed by `(`. -/
theorem C9_thm :
    (∀ (start s' : List Char),
      match_string (match_whitespace s').2 = .ok (none, (match_whitespace s').2) →
      (match_funcs (match_whitespace s').2).1 = [] →
      (match_float (match_whitespace s').2).1 = [] →
      (match_digits (match_whitespace s').2).1 = [] →
      tokStep start (',' :: s') =
        .error (.lexError (start.length - (match_whitespace s').2.length))) ∧
    tokenizeStr "if(1,(2),3)" = .error (.lexError 5) ∧
    calcStr "if(1,(2),3)" = .error (.lexError 5) := by
  refine ⟨?_, by decide, by decide⟩
  intro start s' hstr hfun hflt hdig
  simp [tokStep, hstr, hfun, hflt, hdig]

/-- C9 witness: the theorem applied at the actual remainder of
`if(1,(2),3)` after its first comma. -/
theorem C9_witness :
    tokStep "if(1,(2),3)".toList (',' :: "(2),3)".toList) =
      .error (.lexError ("if(1,(2),3)".toList.length -
        (match_whitespace "(2),3)".toList).2.length)) :=
  C9_thm.1 "if(1,(2),3)".toList "(2),3)".toList
    (by decide) (by decide) (by decide) (by decide)

/-- C10: a binary operator token evaluated with fewer than two stacked
values fails with an unguarded pop from the empty stack (an IndexError,
not one of the spec's error kinds) — the operand-count guards exist only
for the Func builtins; in particular the postfix sequence of `1+`. -/
theorem C10_thm :
    (∀ t : Token, t.kind ∈ [Token_Kind.PLUS, .MINUS, .ASTERISK, .SLASH] →
      evaluate [t] = .error .popEmpty ∧
      (∀ v : Token, v.kind ∈ LIT_KINDS → evaluate [v, t] = .error .popEmpty)) ∧
    calcStr "1+" = .error .popEmpty := by
  constructor
  · intro t ht
    rcases t with ⟨k, tv⟩
    simp only [List.mem_cons, List.not_mem_nil, or_false] at ht
    rcases ht with h | h | h | h <;> subst h <;>
      exact ⟨rfl, fun v hv => by rw [evaluate, evaluateLoop_lit v hv]; rfl⟩
  · decide

/-- C10 witness: the theorem applied at Plus with zero and one stacked
operands. -/
theorem C10_witness :
    evaluate [⟨.PLUS, .vstr ['+']⟩] = .error .popEmpty ∧
    evaluate [⟨.INT, .vint 1⟩, ⟨.PLUS, .vstr ['+']⟩] = .error .popEmpty :=
  ⟨(C10_thm.1 ⟨.PLUS, .vstr ['+']⟩ (by decide)).1,
    (C10_thm.1 ⟨.PLUS, .vstr ['+']⟩ (by decide)).2 ⟨.INT, .vint 1⟩ (by decide)⟩

end Calc
